import Mathlib

/-
Shallow embedding of tpDcc-libs-plugin (src/tpDcc/libs/plugin/core/factory.py,
class PluginFactory), together with proofs that settle the claims about it.

Modelling conventions:
- Python class objects discovered as plugins are modelled by `PluginCls`,
  carrying the resolved identifier and resolved version (the factory reads
  them through `_get_identifier` / `_get_version`, which resolve a named
  attribute and call it when it is a function; we model the already-resolved
  string values) plus a numeric tag standing for object identity.
- `self._plugins` is normally a dict keyed by package name, but
  `unregister_path` reassigns it to a plain Python list, and
  `register_plugin_from_class` can store the builtin `list` type object as a
  dict value.  The sum types `PluginsStore` and `PkgEntry` keep these states
  apart so that the attribute/type errors the real code produces on the
  corrupted states can be modelled faithfully.
- Dict keys are `Option String` because queries such as `paths()` look up the
  raw `package_name` argument, which may be `None`; every key a mutation
  inserts has the form `some s`.
- Escaping exceptions are modelled with `Except Unit` (or an explicit
  `raised` constructor); `.ok none` is the "not found" `None` return.
- External collaborators (filesystem walker, path canonicalizer, module
  loaders) are fields of `Env`.
-/

namespace PluginFactory

/-- Loose version components as produced by `distutils.version.LooseVersion.parse`:
maximal digit runs become integers, every other kept chunk stays a string. -/
inductive VComp where
  | num (n : Nat)
  | str (s : String)
deriving DecidableEq

/-- A plugin class as the factory observes it: resolved identifier, resolved
version (both strings), and a tag standing for the identity of the class
object. -/
structure PluginCls where
  ident : String
  vers : String
  tag : Nat
deriving DecidableEq

/-- PluginFactory.PluginLoadingMechanism. -/
inductive Mechanism where
  | GUESS
  | LOAD_SOURCE
  | IMPORTABLE
deriving DecidableEq

/-- A value stored in the `_plugins` dict: normally a real list of plugin
classes; `register_plugin_from_class` executes
`self._plugins.setdefault(package_name, list)` and can therefore store the
builtin `list` type object itself. -/
inductive PkgEntry where
  | plist (l : List PluginCls)
  | listType
deriving DecidableEq

/-- The `_plugins` attribute: a dict keyed by package name, except that
`unregister_path` reassigns it to a plain (empty) Python list. -/
inductive PluginsStore where
  | pdict (d : List (Option String × PkgEntry))
  | pylist (l : List PluginCls)
deriving DecidableEq

/-- One attribute of a loaded module as seen by the scanning loop of
`register_path`: whether reading it raises, whether the value is a class,
whether it is the interface type itself, whether it is a strict subclass of
the interface, and the plugin payload in case it is registered. -/
structure ScanItem where
  raises : Bool
  isClass : Bool
  isInterface : Bool
  isSubcls : Bool
  cls : PluginCls
deriving DecidableEq

/-- A loaded module, reduced to the ordered attribute list `dir()` yields. -/
abbrev PyModule := List ScanItem

/-- External collaborators of the factory: filesystem predicates, the path
canonicalizer `path_utils.clean_path`, `os.path.splitext(p)[0]`, the
recursive walker `folder_utils.walk_level` (root, files) and the two module
loading mechanisms `_mechanism_import` / `_mechanism_load`. -/
structure Env where
  isdir : String → Bool
  isfile : String → Bool
  cleanPath : String → String
  splitext0 : String → String
  walk : String → List (String × List String)
  importMod : String → Option PyModule
  loadMod : String → Option PyModule

/-- The mutable state of a PluginFactory: `versioned` is the truthiness of
`self._version_identifier`; `plugins` is `self._plugins`; `registeredPaths`
is `self._registered_paths` (package → path → mechanism). -/
structure Factory where
  versioned : Bool
  plugins : PluginsStore
  registeredPaths : List (Option String × List (String × Mechanism))
deriving DecidableEq

/-- The argument of `register_plugin_from_class`: whether it is a class,
whether it is a strict subclass of the interface, and its payload. -/
structure PyObj where
  isClass : Bool
  isSubcls : Bool
  cls : PluginCls
deriving DecidableEq

/-- Outcome of `register_plugin_from_class`: a normal boolean return, or an
exception escaping the call; the carried factory is the state after any
mutation performed before the raise. -/
inductive RegClsResult where
  | ok (f : Factory) (b : Bool)
  | raised (f : Factory)
deriving DecidableEq

instance exceptDecEq {ε α : Type} [DecidableEq ε] [DecidableEq α] :
    DecidableEq (Except ε α)
  | .error e, .error f =>
    if h : e = f then .isTrue (by rw [h])
    else .isFalse (by intro hh; injection hh with h1; exact h h1)
  | .error _, .ok _ => .isFalse (by intro hh; injection hh)
  | .ok _, .error _ => .isFalse (by intro hh; injection hh)
  | .ok x, .ok y =>
    if h : x = y then .isTrue (by rw [h])
    else .isFalse (by intro hh; injection hh with h1; exact h h1)

/-- Python dict lookup `d.get(k)` for a dict represented as an assoc list
with unique keys in insertion order. -/
def dGet {α β : Type} [DecidableEq α] : List (α × β) → α → Option β
  | [], _ => none
  | (k, v) :: rest, a => if k = a then some v else dGet rest a

/-- Python dict assignment `d[k] = v`: overwrite in place, otherwise append
(dicts preserve first-insertion key order). -/
def dSet {α β : Type} [DecidableEq α] : List (α × β) → α → β → List (α × β)
  | [], a, v => [(a, v)]
  | (k, w) :: rest, a, v =>
    if k = a then (k, v) :: rest else (k, w) :: dSet rest a v

/-- ASCII letter test, the `[a-zA-Z]` character class. -/
def isAsciiLetter (c : Char) : Bool :=
  ('a' ≤ c && c ≤ 'z') || ('A' ≤ c && c ≤ 'Z')

def isDigitC (c : Char) : Bool := '0' ≤ c && c ≤ '9'

def isLowerC (c : Char) : Bool := 'a' ≤ c && c ≤ 'z'

/-- `p` is a leading segment of `s` (models Python `str.startswith`). -/
def isPref : List Char → List Char → Bool
  | [], _ => true
  | _ :: _, [] => false
  | a :: as, b :: bs => a = b && isPref as bs

/-- `pat` occurs somewhere inside `s` (Python `pat in s`). -/
def hasSub (pat : List Char) : List Char → Bool
  | [] => isPref pat []
  | c :: rest => isPref pat (c :: rest) || hasSub pat rest

/-- `s` ends with `suf`. -/
def endsWithL (suf s : List Char) : Bool := isPref suf.reverse s.reverse

/-- No newline character occurs (Python regex `.` does not match newlines). -/
def noNl (s : List Char) : Bool := s.all (fun c => c != '\n')

/-- A Python regex `$` matches at the end of the string or just before one
final newline; for a pattern anchored at both ends this amounts to
discarding at most one trailing newline. -/
def stripNl (s : List Char) : List Char :=
  if s.getLast? = some '\n' then s.dropLast else s

/-- Python string `<`: lexicographic comparison by code point. -/
def strLtL : List Char → List Char → Bool
  | _, [] => false
  | [], _ :: _ => true
  | a :: as, b :: bs => if a = b then strLtL as bs else decide (a < b)

def strLt (a b : String) : Bool := strLtL a.toList b.toList

/-- `REGEX_FILE_VALIDATOR.match(name)` for `([a-zA-Z].*)(\.py$|\.pyc$)`
(`re.match` anchors at the start): the name starts with an ASCII letter,
continues with non-newline characters, and the part after the first
character ends in `.py` or `.pyc`, with `$` tolerating one trailing
newline. -/
def fileValidatorMatch (name : String) : Bool :=
  match stripNl name.toList with
  | [] => false
  | c :: rest =>
    isAsciiLetter c && noNl rest &&
      (endsWithL ".py".toList rest || endsWithL ".pyc".toList rest)

/-- `REGEX_FOLDER_VALIDATOR.match(root)` for `^((?!__pycache__).)*$`:
matches exactly the strings that, after dropping one optional trailing
newline, contain no newline and no occurrence of `__pycache__`. -/
def folderValidatorMatch (root : String) : Bool :=
  let t := stripNl root.toList
  noNl t && !hasSub "__pycache__".toList t

/-- The per-file filter of `register_path`: the regex validator, then the
`file_name.startswith('test')` and `file_name in ['setup.py']`
exclusions. -/
def fileSelected (name : String) : Bool :=
  fileValidatorMatch name && !isPref "test".toList name.toList &&
    name != "setup.py"

/-- Modelled from the claim wording of C7: the file pattern
`^[A-Za-z].*\.(py|pyc)$` stated by the specification, rendered directly on
the whole name (second, claim-side definition for comparison with
`fileValidatorMatch`). -/
def specFileRegex (name : String) : Bool :=
  match stripNl name.toList with
  | [] => false
  | c :: _ =>
    isAsciiLetter c && noNl (stripNl name.toList) &&
      (endsWithL ".py".toList (stripNl name.toList) ||
        endsWithL ".pyc".toList (stripNl name.toList))

/-- Modelled from the claim wording of C7: the `/`-separated path segments
of a directory path (claim-side definition). -/
def segsAux : List Char → List Char → List String
  | cur, [] => [String.mk cur.reverse]
  | cur, c :: rest =>
    if c = '/' then String.mk cur.reverse :: segsAux [] rest
    else segsAux (c :: cur) rest

/-- Path segments of a string, split on `/`. -/
def pathSegs (s : String) : List String := segsAux [] s.toList

/-- Kind of a version-string character for `LooseVersion.parse`’s
`component_re = (\d+ | [a-z]+ | \.)`: digit run, lowercase run, separator
dot (dropped), or unmatched text chunk. -/
inductive TokKind where
  | digit
  | lower
  | other
deriving DecidableEq

def kindOf (c : Char) : Option TokKind :=
  if isDigitC c then some .digit
  else if isLowerC c then some .lower
  else if c = '.' then none
  else some .other

def digitVal (c : Char) : Nat := c.toNat - '0'.toNat

def natOfDigits (l : List Char) : Nat :=
  l.foldl (fun n c => n * 10 + digitVal c) 0

/-- Turn a finished chunk into a component: digit chunks pass `int()`,
all other chunks stay strings. -/
def pushTok (k : TokKind) (run : List Char) : VComp :=
  match k with
  | .digit => .num (natOfDigits run)
  | .lower => .str (String.mk run)
  | .other => .str (String.mk run)

def tokStep :
    Option (TokKind × List Char) × List VComp → Char →
      Option (TokKind × List Char) × List VComp
  | (st, out), c =>
    match kindOf c, st with
    | none, none => (none, out)
    | none, some (k, run) => (none, out ++ [pushTok k run.reverse])
    | some k, none => (some (k, [c]), out)
    | some k, some (kk, run) =>
      if k = kk then (some (kk, c :: run), out)
      else (some (k, [c]), out ++ [pushTok kk run.reverse])

/-- `LooseVersion.parse`: split the string into maximal digit runs
(converted to numbers), maximal lowercase runs, and maximal runs of other
characters; dots separate and are dropped. -/
def looseParse (s : String) : List VComp :=
  match s.toList.foldl tokStep (none, []) with
  | (none, out) => out
  | (some (k, run), out) => out ++ [pushTok k run.reverse]

def sameKind : VComp → VComp → Bool
  | .num _, .num _ => true
  | .str _, .str _ => true
  | _, _ => false

/-- Python `==` on two version components (`int == str` is `False`). -/
def compEqb : VComp → VComp → Bool
  | .num a, .num b => a == b
  | .str a, .str b => a == b
  | _, _ => false

/-- Python `<` on two version components: numeric for int/int,
lexicographic for str/str, TypeError for mixed kinds. -/
def compLt : VComp → VComp → Except Unit Bool
  | .num a, .num b => .ok (decide (a < b))
  | .str a, .str b => .ok (strLt a b)
  | _, _ => .error ()

/-- Python `>` on two version components. -/
def compGt : VComp → VComp → Except Unit Bool
  | .num a, .num b => .ok (decide (b < a))
  | .str a, .str b => .ok (strLt b a)
  | _, _ => .error ()

/-- Python list `<` on component lists: scan for the first non-equal pair,
which decides (possibly raising on mixed kinds); length decides otherwise. -/
def pyListLt : List VComp → List VComp → Except Unit Bool
  | _, [] => .ok false
  | [], _ :: _ => .ok true
  | a :: as, b :: bs => if compEqb a b then pyListLt as bs else compLt a b

/-- Python list `>` on component lists. -/
def pyListGt : List VComp → List VComp → Except Unit Bool
  | [], _ => .ok false
  | _ :: _, [] => .ok true
  | a :: as, b :: bs => if compEqb a b then pyListGt as bs else compGt a b

/-- `Version.__eq__` via `_cmp`: equal component lists are equal; otherwise
`<` and then `>` are evaluated, either of which can raise TypeError on
mixed component kinds; if neither holds the comparison yields "not
equal". -/
def looseEqTest (a b : List VComp) : Except Unit Bool :=
  if a = b then .ok true
  else
    match pyListLt a b with
    | .error e => .error e
    | .ok true => .ok false
    | .ok false =>
      match pyListGt a b with
      | .error e => .error e
      | .ok _ => .ok false

/-- Python `v in lst` over LooseVersion values: test `==` element by
element, short-circuiting on the first hit and propagating a raise. -/
def pyMem (v : List VComp) : List (List VComp) → Except Unit Bool
  | [] => .ok false
  | x :: xs =>
    match looseEqTest v x with
    | .error e => .error e
    | .ok true => .ok true
    | .ok false => pyMem v xs

/-- The requested version is comparable with a candidate version: at the
first componentwise difference the two components have the same kind
(both numeric or both strings). -/
def vcomparable : List VComp → List VComp → Bool
  | [], _ => true
  | _ :: _, [] => true
  | a :: as, b :: bs => if compEqb a b then vcomparable as bs else sameKind a b

/-- Insert a string into an already sorted list, before the first element
that is not `<` it (Python's sort only uses `<`). -/
def insertSorted (x : String) : List String → List String
  | [] => [x]
  | y :: ys => if strLt y x then y :: insertSorted x ys else x :: y :: ys

/-- Python `sorted` on a list of strings: the stable ascending reordering
under plain string comparison, realised as an insertion sort. -/
def sortStrings (l : List String) : List String := l.foldr insertSorted []

/-- Python truthiness of an optional string argument (`None` and the empty
string are falsy). -/
def truthy : Option String → Bool
  | none => false
  | some s => s != ""

/-- `package_name = package_name or 'tpDcc'`. -/
def pkgOrDefault (p : Option String) : String :=
  match p with
  | some s => if s != "" then s else "tpDcc"
  | none => "tpDcc"

/-- `len(self._plugins)`: number of dict keys, or length of the plain
list. -/
def storeLen : PluginsStore → Nat
  | .pdict d => d.length
  | .pylist l => l.length

/-- `package_name in self._plugins`: key membership on the dict; on a plain
list of classes the membership test compares the string against class
objects and always fails. -/
def storeHasKey (st : PluginsStore) (k : Option String) : Bool :=
  match st with
  | .pdict d => d.any (fun kv => kv.1 == k)
  | .pylist _ => false

/-- `self._plugins.setdefault(package_name, list())` followed by
`self._plugins[package_name].append(item)`, as executed inside
register_path's scan loop.  `none` models an escaping exception
(AttributeError when `_plugins` is a plain list, TypeError when the stored
entry is the `list` type object), with the store unchanged. -/
def storeAppend (st : PluginsStore) (pkg : String) (c : PluginCls) :
    Option PluginsStore :=
  match st with
  | .pylist _ => none
  | .pdict d =>
    match dGet d (some pkg) with
    | none => some (.pdict (dSet d (some pkg) (.plist [c])))
    | some (.plist l) => some (.pdict (dSet d (some pkg) (.plist (l ++ [c]))))
    | some .listType => none

/-- The `for item_name in dir(module_to_inspect)` loop of register_path,
wrapped in `try/except BaseException`: only classes that are strict
subclasses of the interface (and not the interface itself) are appended;
any exception aborts the remaining items of this module while keeping the
mutations already made. -/
def scanModule (pkg : String) : PluginsStore → PyModule → PluginsStore
  | st, [] => st
  | st, it :: rest =>
    if it.raises then st
    else if it.isClass then
      if it.isInterface then scanModule pkg st rest
      else if it.isSubcls then
        match storeAppend st pkg it.cls with
        | none => st
        | some st2 => scanModule pkg st2 rest
      else scanModule pkg st rest
    else scanModule pkg st rest

/-- The file-gathering phase of register_path: walk the tree, skip roots
rejected by REGEX_FOLDER_VALIDATOR, keep file names accepted by the file
filters, and record `clean_path(os.path.join(root, file_name))`
(join modelled as `root ++ "/" ++ name`). -/
def collectFiles (env : Env) (path : String) : List String :=
  (env.walk path).foldl
    (fun acc rf =>
      if !folderValidatorMatch rf.1 then acc
      else
        acc ++ (rf.2.filter fileSelected).map
          (fun fn => env.cleanPath (rf.1 ++ "/" ++ fn)))
    []

def wantsImport : Mechanism → Bool
  | .IMPORTABLE => true
  | .GUESS => true
  | .LOAD_SOURCE => false

def wantsLoad : Mechanism → Bool
  | .LOAD_SOURCE => true
  | .GUESS => true
  | .IMPORTABLE => false

/-- The mechanism dispatch of register_path: IMPORTABLE/GUESS try
the import mechanism first; if no module was produced, LOAD_SOURCE/GUESS
try loading the source directly. -/
def loadWith (env : Env) (mech : Mechanism) (fp : String) : Option PyModule :=
  match (if wantsImport mech then env.importMod fp else none) with
  | some m => some m
  | none => if wantsLoad mech then env.loadMod fp else none

/-- PluginFactory.register_path.  Returns the mutated factory and the value
`len(self._plugins) - current_plugins_count` (an integer). -/
def register_path (env : Env) (f : Factory) (path : String)
    (pkg? : Option String) (mech : Mechanism) : Factory × Int :=
  if path == "" || !env.isdir path then (f, 0)
  else
    let pkg := pkgOrDefault pkg?
    let inner := (dGet f.registeredPaths (some pkg)).getD []
    let rp := dSet f.registeredPaths (some pkg) (dSet inner path mech)
    let f1 : Factory := { f with registeredPaths := rp }
    let count0 := storeLen f1.plugins
    let store := (collectFiles env path).foldl
      (fun st fp =>
        match loadWith env mech fp with
        | none => st
        | some m => scanModule pkg st m)
      f1.plugins
    ({ f1 with plugins := store }, (storeLen store : Int) - (count0 : Int))

/-- The loop of register_paths: skip falsy paths, dedupe by the cleaned,
extension-stripped base name, delegate to register_path and sum the
returned counts. -/
def registerPathsLoop (env : Env) (pkg? : Option String) (mech : Mechanism) :
    Factory → List String → List String → Int → Factory × Int
  | f, [], _, total => (f, total)
  | f, p :: rest, visited, total =>
    if p == "" then registerPathsLoop env pkg? mech f rest visited total
    else
      let base := env.cleanPath (if env.isfile p then env.splitext0 p else p)
      if visited.any (fun x => x == base) then
        registerPathsLoop env pkg? mech f rest visited total
      else
        let r := register_path env f p pkg? mech
        registerPathsLoop env pkg? mech r.1 rest (base :: visited) (total + r.2)

/-- PluginFactory.register_paths. -/
def register_paths (env : Env) (f : Factory) (paths : List String)
    (pkg? : Option String) (mech : Mechanism) : Factory × Int :=
  registerPathsLoop env pkg? mech f paths [] 0

/-- `class_id.replace('.', '-').split('-')[0]`: replace dots by dashes and
take the part before the first dash. -/
def firstDashSegment (s : String) : String :=
  String.mk
    (((s.toList.map (fun c => if c = '.' then '-' else c)).takeWhile
        (fun c => c != '-')))

/-- PluginFactory.register_plugin_from_class.  `raised` models an exception
escaping the call: AttributeError when `_plugins` is a plain list (no
`setdefault`), TypeError from `list.append` on the bare `list` type object
stored by `setdefault(package_name, list)`. -/
def register_plugin_from_class (f : Factory) (o : PyObj)
    (pkg? : Option String) : RegClsResult :=
  if !(o.isClass && o.isSubcls) then .ok f false
  else
    let pkg :=
      if truthy pkg? then pkg?.getD ""
      else
        let classId := o.cls.ident
        let splitId := firstDashSegment classId
        if splitId != classId then splitId else "tpDcc"
    match f.plugins with
    | .pylist _ => .raised f
    | .pdict d =>
      match dGet d (some pkg) with
      | some (.plist l) =>
        .ok { f with plugins := .pdict (dSet d (some pkg) (.plist (l ++ [o.cls]))) }
          true
      | some .listType => .raised f
      | none => .raised { f with plugins := .pdict (dSet d (some pkg) .listType) }

/-- PluginFactory.paths:
`list(self._registered_paths.get(package_name, dict()).keys())` with the
raw (unnormalized) package argument used as the dict key. -/
def paths (f : Factory) (pkg? : Option String) : List String :=
  ((dGet f.registeredPaths pkg?).getD []).map (fun kv => kv.1)

/-- PluginFactory.versions: empty when no version identifier is configured,
otherwise Python `sorted` (plain string comparison) of the resolved
versions of the plugins matching the identifier, looked up with the raw
package argument.  `.error` models an exception escaping on the corrupted
stores (`.get` on a list / iterating the `list` type object). -/
def versions (f : Factory) (identifier : String) (pkg? : Option String) :
    Except Unit (List String) :=
  if !f.versioned then .ok []
  else
    match f.plugins with
    | .pylist _ => .error ()
    | .pdict d =>
      match (dGet d pkg?).getD (.plist []) with
      | .listType => .error ()
      | .plist l =>
        .ok (sortStrings
          ((l.filter (fun p => p.ident == identifier)).map (fun p => p.vers)))

/-- Gathering candidates over all packages:
`for plugins in list(self._plugins.values()): for plugin in plugins: ...`;
iterating a stored `list` type object raises TypeError. -/
def gatherAll (pid : String) :
    List (Option String × PkgEntry) → Except Unit (List PluginCls)
  | [] => .ok []
  | (_, .listType) :: _ => .error ()
  | (_, .plist l) :: rest =>
    match gatherAll pid rest with
    | .error e => .error e
    | .ok ms => .ok (l.filter (fun p => p.ident == pid) ++ ms)

/-- The candidate-gathering step of get_plugin_from_id (after the
registered-package check): plugins of the given package, or of all
packages, whose resolved identifier equals the requested id.  `.error`
models an exception escaping on the corrupted stores. -/
def matchingPlugins (f : Factory) (pid : String) (pkg? : Option String) :
    Except Unit (List PluginCls) :=
  if truthy pkg? then
    match f.plugins with
    | .pylist _ => .error ()
    | .pdict d =>
      match (dGet d pkg?).getD (.plist []) with
      | .listType => .error ()
      | .plist l => .ok (l.filter (fun p => p.ident == pid))
  else
    match f.plugins with
    | .pylist _ => .error ()
    | .pdict d => gatherAll pid d

/-- The dict comprehension
`versions = {self._get_version(plugin): plugin for plugin in matching_plugins}`:
keys in first-occurrence order, later plugins with an equal version string
overwrite earlier ones. -/
def buildVersionsDict (ms : List PluginCls) : List (String × PluginCls) :=
  ms.foldl (fun d p => dSet d p.vers p) []

/-- PluginFactory.get_plugin_from_id.  `.ok none` is the "not found" `None`
return; `.error` models an exception escaping the call (TypeError from
comparing incompatible LooseVersion component lists, KeyError from the
final string-keyed lookup, or attribute/iteration errors on the corrupted
stores).  When no version is requested the code evaluates
`versions[str(ordered_versions[0])]`, and `str` round-trips the vstring, so
the first dict key is looked up unchanged. -/
def get_plugin_from_id (f : Factory) (pid : String) (pkg? : Option String)
    (ver? : Option String) : Except Unit (Option PluginCls) :=
  if truthy pkg? && !storeHasKey f.plugins pkg? then .ok none
  else
    match matchingPlugins f pid pkg? with
    | .error e => .error e
    | .ok ms =>
      if ms.isEmpty then .ok none
      else if !f.versioned then .ok ms.head?
      else
        let vdict := buildVersionsDict ms
        let keys := vdict.map (fun kv => kv.1)
        if !truthy ver? then .ok (dGet vdict (keys.headD ""))
        else
          let v := ver?.getD ""
          match pyMem (looseParse v) (keys.map looseParse) with
          | .error e => .error e
          | .ok true =>
            match dGet vdict v with
            | some p => .ok (some p)
            | none => .error ()
          | .ok false => .ok none

/-- PluginFactory.unregister_path: snapshot the registered paths, reassign
`self._plugins = list()` (a plain list) and `self._registered_paths = dict()`,
then re-register every stored (package, path, mechanism) triple except the
one whose package equals the raw argument and whose cleaned path equals the
cleaned target. -/
def unregister_path (env : Env) (f : Factory) (path : String)
    (pkg? : Option String) : Factory :=
  let registered := f.registeredPaths
  let f0 : Factory := { f with plugins := .pylist [], registeredPaths := [] }
  registered.foldl
    (fun acc pkgEntry =>
      pkgEntry.2.foldl
        (fun acc2 pm =>
          if pkg? == pkgEntry.1 && env.cleanPath pm.1 == env.cleanPath path then
            acc2
          else (register_path env acc2 pm.1 pkgEntry.1 pm.2).1)
        acc)
    f0

/-- Shorthand for building a plugin class value. -/
def plug (i v : String) (t : Nat) : PluginCls := ⟨i, v, t⟩

/-- Fixture for C1: a versioned factory holding three plugins that share the
identifier "p", discovered with versions "1.2", "1.10", "2.0" in that
order. -/
def fC1 : Factory :=
  { versioned := true
    plugins := .pdict
      [(some "tpDcc",
        .plist [plug "p" "1.2" 1, plug "p" "1.10" 2, plug "p" "2.0" 3])]
    registeredPaths := [] }

/-- A module defining exactly one strict subclass of the interface. -/
def modOnePlugin : PyModule := [⟨false, true, false, true, plug "tool" "1.0" 7⟩]

/-- Environment for C2/C3: two directories, each holding one plugin file
that defines one strict subclass of the interface. -/
def envTwoDirs : Env :=
  { isdir := fun p => p == "/plugs" || p == "/plugs2"
    isfile := fun _ => false
    cleanPath := fun p => p
    splitext0 := fun p => p
    walk := fun p =>
      if p == "/plugs" then [("/plugs", ["tool.py"])]
      else if p == "/plugs2" then [("/plugs2", ["tool2.py"])]
      else []
    importMod := fun fp =>
      if fp == "/plugs/tool.py" then some modOnePlugin
      else if fp == "/plugs2/tool2.py" then
        some [⟨false, true, false, true, plug "tool2" "1.0" 8⟩]
      else none
    loadMod := fun _ => none }

/-- A fresh, unversioned factory. -/
def freshFactory : Factory :=
  { versioned := false, plugins := .pdict [], registeredPaths := [] }

/-- Environment for C7: the walked root directory name contains
`__pycache__` as a proper substring of a single segment, and holds a file
that defines a valid plugin. -/
def envPycacheSub : Env :=
  { isdir := fun p => p == "/r"
    isfile := fun _ => false
    cleanPath := fun p => p
    splitext0 := fun p => p
    walk := fun p => if p == "/r" then [("a__pycache__b", ["tool.py"])] else []
    importMod := fun _ => some modOnePlugin
    loadMod := fun _ => none }

/-- Fixture for C5: a versioned factory with two plugins sharing identifier
"p", versions "1.2" and "1.10". -/
def fC5 : Factory :=
  { versioned := true
    plugins := .pdict
      [(some "tpDcc", .plist [plug "p" "1.2" 1, plug "p" "1.10" 2])]
    registeredPaths := [] }

/-- Fixture for C9: a versioned factory with one plugin of version "beta". -/
def fC9 : Factory :=
  { versioned := true
    plugins := .pdict [(some "tpDcc", .plist [plug "p" "beta" 1])]
    registeredPaths := [] }

/-- Fixture for the C9 witness: a versioned factory with one plugin of
version "1.0". -/
def fW9 : Factory :=
  { versioned := true
    plugins := .pdict [(some "tpDcc", .plist [plug "p" "1.0" 1])]
    registeredPaths := [] }

/-- Fixture for the C6 witness: an unversioned factory with two plugins
sharing the identifier "p". -/
def fW6 : Factory :=
  { versioned := false
    plugins := .pdict [(some "tpDcc", .plist [plug "p" "1" 1, plug "p" "2" 2])]
    registeredPaths := [] }

/-- Environment for the C10 witness: one registrable directory with no
contents. -/
def envW10 : Env :=
  { isdir := fun p => p == "/w"
    isfile := fun _ => false
    cleanPath := fun p => p
    splitext0 := fun p => p
    walk := fun _ => []
    importMod := fun _ => none
    loadMod := fun _ => none }

/-- C1: evaluation at the failing input.  With versioning enabled and no
version requested, get_plugin_from_id does not return the
highest-versioned candidate: among same-identifier candidates with
versions "1.2", "1.10", "2.0" (in discovery order) it returns the plugin
with version "1.2" — the first distinct version encountered — because
`ordered_versions` is never sorted before element 0 is taken, contradicting
the claim (and the code's own comment about returning the highest value). -/
theorem C1_code_bug_eval :
    get_plugin_from_id fC1 "p" none none = .ok (some (plug "p" "1.2" 1)) ∧
      get_plugin_from_id fC1 "p" none none ≠ .ok (some (plug "p" "2.0" 3)) := by
  constructor
  · rfl
  · decide

/-- C2: evaluation at the failing input.  register_path returns
`len(self._plugins) - current_plugins_count`, but `_plugins` is keyed by
package, so the return value is the number of new package keys, not of new
plugin entries: the first registration into package "tpDcc" returns 1, yet
a second registration that demonstrably appends one more plugin entry to
the same package returns 0, contradicting the claim. -/
theorem C2_code_bug_eval :
    (register_path envTwoDirs freshFactory "/plugs" none .GUESS).2 = 1 ∧
      (register_path envTwoDirs
        (register_path envTwoDirs freshFactory "/plugs" none .GUESS).1
        "/plugs2" none .GUESS).2 = 0 ∧
      (register_path envTwoDirs
        (register_path envTwoDirs freshFactory "/plugs" none .GUESS).1
        "/plugs2" none .GUESS).1.plugins =
        .pdict [(some "tpDcc",
          .plist [plug "tool" "1.0" 7, plug "tool2" "1.0" 8])] := by
  refine ⟨rfl, rfl, rfl⟩

/-- C3: evaluation at the failing input.  After registering /plugs and
/plugs2 under package "tpDcc" (each contributing one plugin, and /plugs's
plugin is retrievable), unregister_path("/plugs2", "tpDcc") reassigns
`self._plugins` to a plain empty list; the re-registration of /plugs then
fails to store anything (the `setdefault` AttributeError is swallowed by
the scan's except clause), so /plugs's plugin is no longer discoverable,
contradicting the claim that exactly p1's plugins remain. -/
theorem C3_code_bug_eval :
    get_plugin_from_id
        (register_path envTwoDirs
          (register_path envTwoDirs freshFactory "/plugs" none .GUESS).1
          "/plugs2" none .GUESS).1
        "tool" (some "tpDcc") none = .ok (some (plug "tool" "1.0" 7)) ∧
      (unregister_path envTwoDirs
        (register_path envTwoDirs
          (register_path envTwoDirs freshFactory "/plugs" none .GUESS).1
          "/plugs2" none .GUESS).1
        "/plugs2" (some "tpDcc")).plugins = .pylist [] ∧
      (unregister_path envTwoDirs
        (register_path envTwoDirs
          (register_path envTwoDirs freshFactory "/plugs" none .GUESS).1
          "/plugs2" none .GUESS).1
        "/plugs2" (some "tpDcc")).registeredPaths =
        [(some "tpDcc", [("/plugs", Mechanism.GUESS)])] ∧
      get_plugin_from_id
        (unregister_path envTwoDirs
          (register_path envTwoDirs
            (register_path envTwoDirs freshFactory "/plugs" none .GUESS).1
            "/plugs2" none .GUESS).1
          "/plugs2" (some "tpDcc"))
        "tool" (some "tpDcc") none = .ok none := by
  refine ⟨rfl, rfl, rfl, rfl⟩

/-- C4: evaluation at the failing input.  Registering a non-subclass does
return False without raising, but registering a valid strict subclass into
a factory whose derived package ("tpDcc", from identifier "myplugin") has
no plugin list yet executes `self._plugins.setdefault(package_name,
list).append(plugin_class)`, which appends on the bare `list` type object:
a TypeError escapes (after the type object has been stored under the
package key), contradicting the claim that True is returned with no
exception. -/
theorem C4_code_bug_eval :
    register_plugin_from_class freshFactory ⟨true, false, plug "bad" "1.0" 12⟩
        none = .ok freshFactory false ∧
      register_plugin_from_class freshFactory
        ⟨true, true, plug "myplugin" "1.0" 11⟩ none =
        .raised { freshFactory with
          plugins := .pdict [(some "tpDcc", .listType)] } := by
  refine ⟨rfl, rfl⟩

/-- C5: counterexample.  versions() sorts the version strings with plain
string comparison, so for matching versions "1.2" and "1.10" it returns
["1.10", "1.2"], not the loose-order ascending ["1.2", "1.10"] the claim
requires. -/
theorem C5_counterexample :
    versions fC5 "p" (some "tpDcc") = .ok ["1.10", "1.2"] ∧
      versions fC5 "p" (some "tpDcc") ≠ .ok ["1.2", "1.10"] := by
  constructor
  · rfl
  · decide

/-- C7: counterexample.  The walked root "a__pycache__b" has no path
segment equal to "__pycache__", yet REGEX_FOLDER_VALIDATOR rejects it
(the regex excludes any root containing the substring), and a register_path
walk whose only root is that directory discovers no plugin from the valid
plugin file inside it — contradicting the claim that a segment merely
containing the string as a substring is not excluded. -/
theorem C7_counterexample :
    (∀ seg ∈ pathSegs "a__pycache__b", seg ≠ "__pycache__") ∧
      folderValidatorMatch "a__pycache__b" = false ∧
      (register_path envPycacheSub freshFactory "/r" none .GUESS).1.plugins =
        .pdict [] := by
  refine ⟨by decide, rfl, rfl⟩

/-- C9: counterexample.  With versioning enabled, one candidate of resolved
version "beta" and requested version "1.0" (absent among the resolved
versions), get_plugin_from_id does not return the "not found" sentinel: the
LooseVersion membership test compares the component lists [1, 0] and
["beta"], and the mixed int/str `<` raises a TypeError that escapes the
call. -/
theorem C9_counterexample :
    get_plugin_from_id fC9 "p" none (some "1.0") = .error () ∧
      get_plugin_from_id fC9 "p" none (some "1.0") ≠ .ok none := by
  constructor
  · rfl
  · decide

theorem dGet_eq_none {β : Type} (d : List (Option String × β))
    (k : Option String) (h : d.any (fun kv => kv.1 == k) = false) :
    dGet d k = none := by
  induction d with
  | nil => rfl
  | cons kv rest ih =>
    obtain ⟨k1, v1⟩ := kv
    simp only [List.any_cons, Bool.or_eq_false_iff] at h
    simp only [dGet]
    rw [if_neg, ih h.2]
    intro he
    rw [he] at h
    simp at h

/-- C6: on a factory constructed without a version identifier, versions()
always returns the empty list, and get_plugin_from_id is independent of the
version argument and returns the first matching candidate in discovery
order whenever a candidate exists. -/
theorem C6_unversioned_behavior (f : Factory) (h : f.versioned = false) :
    (∀ identifier pkg?, versions f identifier pkg? = .ok []) ∧
      (∀ pid pkg? v1 v2,
        get_plugin_from_id f pid pkg? v1 = get_plugin_from_id f pid pkg? v2) ∧
      (∀ pid pkg? v p ps, matchingPlugins f pid pkg? = .ok (p :: ps) →
        get_plugin_from_id f pid pkg? v = .ok (some p)) := by
  refine ⟨?_, ?_, ?_⟩
  · intro identifier pkg?
    simp [versions, h]
  · intro pid pkg? v1 v2
    simp only [get_plugin_from_id, h]
    cases hm : matchingPlugins f pid pkg? <;> simp [hm]
  · intro pid pkg? v p ps hm
    by_cases hk : (truthy pkg? && !storeHasKey f.plugins pkg?) = true
    · exfalso
      rw [Bool.and_eq_true] at hk
      obtain ⟨ht, hs⟩ := hk
      rw [Bool.not_eq_true'] at hs
      cases hst : f.plugins with
      | pylist l =>
        simp [matchingPlugins, ht, hst] at hm
      | pdict d =>
        rw [hst] at hs
        simp only [storeHasKey] at hs
        simp [matchingPlugins, ht, hst, dGet_eq_none d pkg? hs] at hm
    · simp only [get_plugin_from_id, if_neg hk, hm, h, List.isEmpty_cons,
        Bool.not_false, if_true, List.head?_cons, Bool.false_eq_true, if_false]

/-- C6 witness: on a concrete unversioned factory with two candidates for
identifier "p", a lookup with a junk version argument returns the first
candidate. -/
theorem C6_witness :
    get_plugin_from_id fW6 "p" none (some "zzz") =
      .ok (some (plug "p" "1" 1)) := by
  exact (C6_unversioned_behavior fW6 rfl).2.2 "p" none (some "zzz")
    (plug "p" "1" 1) [plug "p" "2" 2] rfl

/-- C8: registering the same path twice in one register_paths call behaves
exactly like registering it once — the duplicate is removed by the
visited-set dedup on the cleaned, extension-stripped base name — for every
environment, starting state, package and mechanism. -/
theorem C8_register_paths_dedup (env : Env) (f : Factory) (p : String)
    (pkg? : Option String) (mech : Mechanism) :
    register_paths env f [p, p] pkg? mech =
      register_paths env f [p] pkg? mech := by
  unfold register_paths
  by_cases hp : (p == "") = true
  · simp [registerPathsLoop, hp]
  · rw [Bool.not_eq_true] at hp
    simp [registerPathsLoop, hp]

theorem register_path_registeredPaths (env : Env) (f : Factory)
    (path : String) (pkg? : Option String) (mech : Mechanism)
    (h1 : (path == "") = false) (h2 : env.isdir path = true) :
    (register_path env f path pkg? mech).1.registeredPaths =
      dSet f.registeredPaths (some (pkgOrDefault pkg?))
        (dSet ((dGet f.registeredPaths (some (pkgOrDefault pkg?))).getD [])
          path mech) := by
  simp [register_path, h1, h2]

/-- C10: after register_path succeeds with no package argument on a factory
with no previously registered paths, the path is stored under the default
package name "tpDcc": paths() with no argument looks up the literal key
None and returns the empty list, while paths("tpDcc") — and only it —
returns the registered path. -/
theorem C10_paths_default_package (env : Env) (f : Factory) (p : String)
    (mech : Mechanism) (h1 : (p == "") = false) (h2 : env.isdir p = true)
    (hf : f.registeredPaths = []) :
    paths (register_path env f p none mech).1 none = [] ∧
      paths (register_path env f p none mech).1 (some "tpDcc") = [p] ∧
      ∀ q, q ≠ some "tpDcc" →
        paths (register_path env f p none mech).1 q = [] := by
  have hr := register_path_registeredPaths env f p none mech h1 h2
  rw [hf] at hr
  simp only [dGet, Option.getD_none, dSet, pkgOrDefault] at hr
  refine ⟨?_, ?_, ?_⟩
  · simp [paths, hr, dGet]
  · simp [paths, hr, dGet]
  · intro q hq
    simp only [paths, hr, dGet]
    rw [if_neg (fun he => hq he.symm)]
    rfl

/-- C10 witness: concrete registration of "/w" with no package argument. -/
theorem C10_witness :
    paths (register_path envW10 freshFactory "/w" none .GUESS).1 none = [] ∧
      paths (register_path envW10 freshFactory "/w" none .GUESS).1
        (some "tpDcc") = ["/w"] := by
  have h := C10_paths_default_package envW10 freshFactory "/w" .GUESS rfl rfl rfl
  exact ⟨h.1, h.2.1⟩

theorem strLtL_asymm : ∀ a b : List Char, strLtL a b = true → strLtL b a = false
  | [], [] => by intro h; simp [strLtL] at h
  | [], _ :: _ => by intro _; simp [strLtL]
  | _ :: _, [] => by intro h; simp [strLtL] at h
  | a :: as, b :: bs => by
    simp only [strLtL]
    by_cases hab : a = b
    · subst hab
      simp only [if_pos rfl]
      exact strLtL_asymm as bs
    · rw [if_neg hab, if_neg (fun h => hab h.symm)]
      intro h
      simp only [decide_eq_true_eq] at h
      simp only [decide_eq_false_iff_not]
      exact lt_asymm h

theorem strLtL_trans : ∀ a b c : List Char,
    strLtL a b = true → strLtL b c = true → strLtL a c = true
  | _, b, [] => by intro _ h2; simp [strLtL] at h2
  | [], [], c :: cs => by intro h1 _; simp [strLtL] at h1
  | [], b :: bs, c :: cs => by intro _ _; simp [strLtL]
  | a :: as, [], c :: cs => by intro h1 _; simp [strLtL] at h1
  | a :: as, b :: bs, c :: cs => by
    simp only [strLtL]
    by_cases hab : a = b <;> by_cases hbc : b = c
    · subst hab; subst hbc
      simp only [if_pos rfl]
      exact strLtL_trans as bs cs
    · subst hab
      rw [if_pos rfl, if_neg hbc, if_neg hbc]
      exact fun _ h2 => h2
    · subst hbc
      rw [if_neg hab, if_pos rfl, if_neg hab]
      exact fun h1 _ => h1
    · rw [if_neg hab, if_neg hbc]
      intro h1 h2
      simp only [decide_eq_true_eq] at h1 h2
      have hac : a < c := lt_trans h1 h2
      rw [if_neg (fun he : a = c => absurd (he ▸ hac) (lt_irrefl c))]
      simp [hac]

theorem strLtL_conn : ∀ a b : List Char,
    strLtL a b = false → strLtL b a = false → a = b
  | [], [] => fun _ _ => rfl
  | [], _ :: _ => by intro h1 _; simp [strLtL] at h1
  | _ :: _, [] => by intro _ h2; simp [strLtL] at h2
  | a :: as, b :: bs => by
    simp only [strLtL]
    by_cases hab : a = b
    · subst hab
      rw [if_pos rfl, if_pos rfl]
      intro h1 h2
      rw [strLtL_conn as bs h1 h2]
    · rw [if_neg hab, if_neg (fun h => hab h.symm)]
      intro h1 h2
      simp only [decide_eq_false_iff_not] at h1 h2
      exact absurd (le_antisymm (le_of_not_lt h2) (le_of_not_lt h1)) hab

theorem strLt_asymm (a b : String) (h : strLt a b = true) : strLt b a = false :=
  strLtL_asymm _ _ h

theorem strLt_trans (a b c : String) (h1 : strLt a b = true)
    (h2 : strLt b c = true) : strLt a c = true :=
  strLtL_trans _ _ _ h1 h2

theorem strLt_conn (a b : String) (h1 : strLt a b = false)
    (h2 : strLt b a = false) : a = b := by
  have h := strLtL_conn a.toList b.toList h1 h2
  cases a with
  | mk da =>
    cases b with
    | mk db =>
      have hd : da = db := h
      rw [hd]

theorem strLt_le_trans (x y z : String) (h1 : strLt y x = false)
    (h2 : strLt z y = false) : strLt z x = false := by
  cases hxy : strLt x y with
  | false =>
    rw [strLt_conn x y hxy h1]
    exact h2
  | true =>
    cases hzx : strLt z x with
    | false => rfl
    | true =>
      have hzy := strLt_trans z x y hzx hxy
      rw [hzy] at h2
      simp at h2

theorem mem_insertSorted (x z : String) :
    ∀ l, z ∈ insertSorted x l → z = x ∨ z ∈ l
  | [] => by
    intro h
    simp only [insertSorted, List.mem_singleton] at h
    exact Or.inl h
  | y :: ys => by
    intro h
    simp only [insertSorted] at h
    by_cases hyx : strLt y x = true
    · rw [if_pos hyx] at h
      rcases List.mem_cons.mp h with h | h
      · exact Or.inr (h ▸ List.mem_cons_self y ys)
      · rcases mem_insertSorted x z ys h with h | h
        · exact Or.inl h
        · exact Or.inr (List.mem_cons_of_mem y h)
    · rw [if_neg hyx] at h
      rcases List.mem_cons.mp h with h | h
      · exact Or.inl h
      · exact Or.inr h

theorem pairwise_insertSorted (x : String) :
    ∀ l, List.Pairwise (fun a b => strLt b a = false) l →
      List.Pairwise (fun a b => strLt b a = false) (insertSorted x l)
  | [], _ => by simp [insertSorted]
  | y :: ys, h => by
    simp only [insertSorted]
    rcases List.pairwise_cons.mp h with ⟨hy, hys⟩
    by_cases hyx : strLt y x = true
    · rw [if_pos hyx]
      refine List.pairwise_cons.mpr ⟨?_, pairwise_insertSorted x ys hys⟩
      intro z hz
      rcases mem_insertSorted x z ys hz with rfl | hzys
      · exact strLt_asymm _ _ hyx
      · exact hy z hzys
    · rw [if_neg hyx]
      rw [Bool.not_eq_true] at hyx
      refine List.pairwise_cons.mpr ⟨?_, h⟩
      intro z hz
      rcases List.mem_cons.mp hz with rfl | hzys
      · exact hyx
      · exact strLt_le_trans x y z hyx (hy z hzys)

theorem sortStrings_pairwise :
    ∀ l, List.Pairwise (fun a b => strLt b a = false) (sortStrings l)
  | [] => List.Pairwise.nil
  | x :: xs => pairwise_insertSorted x (sortStrings xs) (sortStrings_pairwise xs)

theorem insertSorted_perm (x : String) :
    ∀ l, (insertSorted x l).Perm (x :: l)
  | [] => List.Perm.refl _
  | y :: ys => by
    simp only [insertSorted]
    by_cases hyx : strLt y x = true
    · rw [if_pos hyx]
      exact ((insertSorted_perm x ys).cons y).trans (List.Perm.swap x y ys)
    · rw [if_neg hyx]

theorem sortStrings_perm : ∀ l, (sortStrings l).Perm l
  | [] => List.Perm.refl _
  | x :: xs => (insertSorted_perm x (sortStrings xs)).trans
      ((sortStrings_perm xs).cons x)

/-- C5 (amended): with versioning enabled, versions(identifier, package)
returns the resolved versions of the matching plugins of that package
sorted ascending under plain string (lexicographic) comparison — Python's
default `sorted` on strings — not under the loose dotted-component
ordering: the output is pairwise nondecreasing for string comparison and a
permutation of the matching versions. -/
theorem C5_amended_versions_sorted (f : Factory) (identifier : String)
    (pkg? : Option String) (d : List (Option String × PkgEntry))
    (l : List PluginCls) (hv : f.versioned = true)
    (hd : f.plugins = .pdict d)
    (hl : (dGet d pkg?).getD (.plist []) = .plist l) :
    ∀ out, versions f identifier pkg? = .ok out →
      List.Pairwise (fun a b => strLt b a = false) out ∧
        out.Perm ((l.filter (fun p => p.ident == identifier)).map
          (fun p => p.vers)) := by
  intro out hout
  have hv2 : versions f identifier pkg? =
      .ok (sortStrings ((l.filter (fun p => p.ident == identifier)).map
        (fun p => p.vers))) := by
    simp [versions, hv, hd, hl]
  rw [hv2] at hout
  injection hout with h1
  rw [← h1]
  exact ⟨sortStrings_pairwise _, sortStrings_perm _⟩

/-- C5 amended witness: the concrete output ["1.10", "1.2"] for matching
versions "1.2", "1.10" is string-sorted and a permutation of them. -/
theorem C5_amended_witness :
    List.Pairwise (fun a b : String => strLt b a = false) ["1.10", "1.2"] ∧
      (["1.10", "1.2"] : List String).Perm ["1.2", "1.10"] := by
  exact C5_amended_versions_sorted fC5 "p" (some "tpDcc")
    [(some "tpDcc", .plist [plug "p" "1.2" 1, plug "p" "1.10" 2])]
    [plug "p" "1.2" 1, plug "p" "1.10" 2] rfl rfl rfl ["1.10", "1.2"] rfl

theorem comparable_lt_ok : ∀ a b : List VComp, vcomparable a b = true →
    ∃ t, pyListLt a b = .ok t
  | [], [] => fun _ => ⟨false, rfl⟩
  | _ :: _, [] => fun _ => ⟨false, rfl⟩
  | [], _ :: _ => fun _ => ⟨true, rfl⟩
  | a :: as, b :: bs => by
    intro h
    simp only [vcomparable] at h
    simp only [pyListLt]
    by_cases he : compEqb a b = true
    · rw [if_pos he] at h ⊢
      exact comparable_lt_ok as bs h
    · rw [if_neg he] at h ⊢
      cases a with
      | num x =>
        cases b with
        | num y => exact ⟨_, rfl⟩
        | str y => simp [sameKind] at h
      | str x =>
        cases b with
        | num y => simp [sameKind] at h
        | str y => exact ⟨_, rfl⟩

theorem comparable_gt_ok : ∀ a b : List VComp, vcomparable a b = true →
    ∃ t, pyListGt a b = .ok t
  | [], [] => fun _ => ⟨false, rfl⟩
  | _ :: _, [] => fun _ => ⟨true, rfl⟩
  | [], _ :: _ => fun _ => ⟨false, rfl⟩
  | a :: as, b :: bs => by
    intro h
    simp only [vcomparable] at h
    simp only [pyListGt]
    by_cases he : compEqb a b = true
    · rw [if_pos he] at h ⊢
      exact comparable_gt_ok as bs h
    · rw [if_neg he] at h ⊢
      cases a with
      | num x =>
        cases b with
        | num y => exact ⟨_, rfl⟩
        | str y => simp [sameKind] at h
      | str x =>
        cases b with
        | num y => simp [sameKind] at h
        | str y => exact ⟨_, rfl⟩

theorem comparable_eqTest (a b : List VComp) (hc : vcomparable a b = true)
    (hne : a ≠ b) : looseEqTest a b = .ok false := by
  unfold looseEqTest
  rw [if_neg hne]
  obtain ⟨t, ht⟩ := comparable_lt_ok a b hc
  rw [ht]
  cases t with
  | true => rfl
  | false =>
    obtain ⟨t2, ht2⟩ := comparable_gt_ok a b hc
    rw [ht2]

theorem pyMem_all_out (v : List VComp) : ∀ l : List (List VComp),
    (∀ x ∈ l, vcomparable v x = true ∧ v ≠ x) → pyMem v l = .ok false
  | [], _ => rfl
  | x :: xs, h => by
    simp only [pyMem]
    rw [comparable_eqTest v x (h x (List.mem_cons_self x xs)).1
      (h x (List.mem_cons_self x xs)).2]
    exact pyMem_all_out v xs (fun y hy => h y (List.mem_cons_of_mem x hy))

theorem dSet_keys_sub {α β : Type} [DecidableEq α] :
    ∀ (d : List (α × β)) (k : α) (v : β) (a : α),
      a ∈ (dSet d k v).map (fun kv => kv.1) →
        a ∈ d.map (fun kv => kv.1) ∨ a = k
  | [], k, v, a => by
    intro h
    simp [dSet] at h
    exact Or.inr h
  | (k1, v1) :: rest, k, v, a => by
    intro h
    simp only [dSet] at h
    by_cases he : k1 = k
    · rw [if_pos he] at h
      simp only [List.map_cons, List.mem_cons] at h
      rcases h with rfl | h
      · exact Or.inl (by simp)
      · exact Or.inl (by simp [h])
    · rw [if_neg he] at h
      simp only [List.map_cons, List.mem_cons] at h
      rcases h with rfl | h
      · exact Or.inl (by simp)
      · rcases dSet_keys_sub rest k v a h with h2 | h2
        · exact Or.inl (by simp [h2])
        · exact Or.inr h2

theorem foldlDict_keys_sub :
    ∀ (ms : List PluginCls) (d0 : List (String × PluginCls)) (a : String),
      a ∈ (ms.foldl (fun d p => dSet d p.vers p) d0).map (fun kv => kv.1) →
        a ∈ d0.map (fun kv => kv.1) ∨ a ∈ ms.map (fun p => p.vers)
  | [], d0, a => by
    intro h
    exact Or.inl h
  | m :: ms, d0, a => by
    intro h
    simp only [List.foldl_cons] at h
    rcases foldlDict_keys_sub ms (dSet d0 m.vers m) a h with h2 | h2
    · rcases dSet_keys_sub d0 m.vers m a h2 with h3 | h3
      · exact Or.inl h3
      · exact Or.inr (h3 ▸ List.mem_cons_self _ _)
    · exact Or.inr (List.mem_cons_of_mem _ h2)

theorem buildVersionsDict_keys (ms : List PluginCls) (a : String)
    (h : a ∈ (buildVersionsDict ms).map (fun kv => kv.1)) :
    a ∈ ms.map (fun p => p.vers) := by
  rcases foldlDict_keys_sub ms [] a h with h2 | h2
  · simp at h2
  · exact h2

/-- C9 (amended): get_plugin_from_id returns the "not found" sentinel
without raising in each expected-absence case: (a) a package argument that
is not a registered package key; (b) no plugin with the requested
identifier; (c) versioning enabled and a specific requested version absent
among the candidates' resolved versions — provided, in case (c), that the
requested version is componentwise comparable with every candidate's
resolved version (otherwise the LooseVersion comparison raises TypeError,
as the counterexample shows). -/
theorem C9_amended_not_found :
    (∀ (f : Factory) (pid s : String) (v : Option String),
      truthy (some s) = true → storeHasKey f.plugins (some s) = false →
      get_plugin_from_id f pid (some s) v = .ok none) ∧
      (∀ (f : Factory) (pid : String) (pkg? v : Option String),
        matchingPlugins f pid pkg? = .ok [] →
        get_plugin_from_id f pid pkg? v = .ok none) ∧
      (∀ (f : Factory) (pid : String) (pkg? : Option String) (v : String)
        (ms : List PluginCls),
        f.versioned = true → v ≠ "" →
        matchingPlugins f pid pkg? = .ok ms →
        (∀ m ∈ ms, vcomparable (looseParse v) (looseParse m.vers) = true) →
        (∀ m ∈ ms, looseParse v ≠ looseParse m.vers) →
        get_plugin_from_id f pid pkg? (some v) = .ok none) := by
  refine ⟨?_, ?_, ?_⟩
  · intro f pid s v h1 h2
    simp [get_plugin_from_id, h1, h2]
  · intro f pid pkg? v hm
    by_cases hk : (truthy pkg? && !storeHasKey f.plugins pkg?) = true
    · simp [get_plugin_from_id, hk]
    · simp [get_plugin_from_id, if_neg hk, hm]
  · intro f pid pkg? v ms hv hne hm hcomp hne2
    by_cases hk : (truthy pkg? && !storeHasKey f.plugins pkg?) = true
    · simp [get_plugin_from_id, hk]
    · have hall : ∀ x ∈ ((buildVersionsDict ms).map (fun kv => kv.1)).map
          looseParse, vcomparable (looseParse v) x = true ∧ looseParse v ≠ x := by
        intro x hx
        rcases List.mem_map.mp hx with ⟨k, hk2, rfl⟩
        rcases List.mem_map.mp (buildVersionsDict_keys ms k hk2) with ⟨m, hmm, hfk⟩
        rw [← hfk]
        exact ⟨hcomp m hmm, hne2 m hmm⟩
      have hmem := pyMem_all_out (looseParse v) _ hall
      cases ms with
      | nil => simp [get_plugin_from_id, if_neg hk, hm]
      | cons m0 mrest =>
        have htr : truthy (some v) = true := by
          simp [truthy]
          exact hne
        simp only [get_plugin_from_id, if_neg hk, hm, List.isEmpty_cons,
          Bool.false_eq_true, if_false, hv, Bool.not_true, htr,
          Option.getD_some]
        rw [hmem]

/-- C9 amended witness: requesting the absent but comparable version "2.5"
among resolved versions ["1.0"] returns the sentinel without raising. -/
theorem C9_amended_witness :
    get_plugin_from_id fW9 "p" none (some "2.5") = .ok none := by
  exact C9_amended_not_found.2.2 fW9 "p" none "2.5" [plug "p" "1.0" 1] rfl
    (by decide) rfl (by decide) (by decide)

theorem letter_ne_nl (c : Char) (h : isAsciiLetter c = true) :
    (c != '\n') = true := by
  rcases eq_or_ne c '\n' with rfl | hne
  · exact absurd h (by decide)
  · simpa using hne

theorem stripNl_of_noNl (s : List Char) (h : noNl s = true) : stripNl s = s := by
  unfold stripNl
  rw [if_neg]
  intro hlast
  have hmem : '\n' ∈ s := List.mem_of_mem_getLast? hlast
  rw [noNl, List.all_eq_true] at h
  have := h '\n' hmem
  simp at this

theorem isPref_snoc (c : Char) : ∀ (p xs : List Char),
    isPref p (xs ++ [c]) = (isPref p xs || decide (p = xs ++ [c]))
  | [], xs => by simp [isPref]
  | a :: as, [] => by
    cases as with
    | nil => by_cases h : a = c <;> simp [isPref, h]
    | cons a2 as2 => by_cases h : a = c <;> simp [isPref, h]
  | a :: as, x :: xs => by
    show (decide (a = x) && isPref as (xs ++ [c])) =
      ((decide (a = x) && isPref as xs) || decide (a :: as = x :: xs ++ [c]))
    rw [isPref_snoc c as xs]
    by_cases h : a = x
    · subst h
      simp [Bool.and_or_distrib_left]
    · simp [h]

theorem endsWithL_cons (suf : List Char) (c : Char) (rest : List Char)
    (h : suf.reverse ≠ rest.reverse ++ [c]) :
    endsWithL suf (c :: rest) = endsWithL suf rest := by
  unfold endsWithL
  rw [List.reverse_cons, isPref_snoc c suf.reverse rest.reverse,
    decide_eq_false h, Bool.or_false]

theorem letter_suffix_ne (c : Char) (hc : isAsciiLetter c = true)
    (suf : List Char) (hs : suf.getLast? = some '.') (rest : List Char) :
    suf ≠ rest.reverse ++ [c] := by
  intro he
  rw [he, List.getLast?_concat] at hs
  injection hs with h1
  rw [h1] at hc
  exact absurd hc (by decide)

/-- C7 (amended): a file is scanned exactly when its name matches
`^[A-Za-z].*\.(py|pyc)$`, does not start with "test" and is not exactly
"setup.py" — as the claim states — but a directory is excluded from
traversal exactly when its path contains "__pycache__" as a substring
anywhere (so a segment merely containing that string is excluded too,
contrary to the claim's parenthetical). -/
theorem C7_amended_filters (name root : String)
    (hnl : noNl root.toList = true) :
    fileSelected name =
      (specFileRegex name && !isPref "test".toList name.toList &&
        name != "setup.py") ∧
      (folderValidatorMatch root = false ↔
        hasSub "__pycache__".toList root.toList = true) := by
  constructor
  · unfold fileSelected fileValidatorMatch specFileRegex
    cases hst : stripNl name.toList with
    | nil => rfl
    | cons c rest =>
      by_cases hc : isAsciiLetter c = true
      · have e1 : noNl (c :: rest) = noNl rest := by
          simp [noNl, letter_ne_nl c hc]
        have e2 : endsWithL ".py".toList (c :: rest) =
            endsWithL ".py".toList rest :=
          endsWithL_cons ".py".toList c rest
            (letter_suffix_ne c hc ".py".toList.reverse rfl rest)
        have e3 : endsWithL ".pyc".toList (c :: rest) =
            endsWithL ".pyc".toList rest :=
          endsWithL_cons ".pyc".toList c rest
            (letter_suffix_ne c hc ".pyc".toList.reverse rfl rest)
        rw [e1, e2, e3]
      · rw [Bool.not_eq_true] at hc
        simp [hc]
  · have hstrip : stripNl root.toList = root.toList :=
      stripNl_of_noNl _ hnl
    simp only [folderValidatorMatch, hstrip, hnl, Bool.true_and]
    simp

/-- C7 amended witness: the concrete name "plugin.py" is selected, and the
concrete root "x__pycache__y" — whose only segment merely contains the
cache-directory name — is rejected by the folder validator. -/
theorem C7_amended_witness :
    folderValidatorMatch "x__pycache__y" = false ∧
      fileSelected "plugin.py" = true := by
  have h := C7_amended_filters "plugin.py" "x__pycache__y" (by decide)
  refine ⟨h.2.mpr (by decide), ?_⟩
  rw [h.1]
  decide

end PluginFactory
